import Mathlib

/-!
Shallow embedding of `klee::kdalloc::Mapping`
(src/include/klee/KDAlloc/mapping.h).

Modelling conventions:
* Process addresses are `Nat`; the `MAP_FAILED` sentinel of the C++ field
  `void *baseAddress` is modelled as `Option.none`, a mapped address `a` as
  `some a`.
* The OS is modelled explicitly: a multiset of currently mapped regions
  (base, size) together with a flag that is set the moment `munmap` is called
  on a region that is not currently mapped (a "double release").  Real
  `munmap` returns 0 even on an unmapped range, so in the model `munmap`
  never fails; the flag only records that a double release happened.
* Each `mmap` call's outcome is an oracle input: `none` models the OS
  returning `MAP_FAILED`, `some a` models the OS returning address `a`.
  The theorems quantify over every oracle behavior, which includes every
  behavior of the real OS (the real OS additionally never returns the null
  page and never maps an already-mapped region twice).
* C++ `assert` failures abort the process; they are modelled as the
  `Except.error` case, carrying the OS state at the moment of the abort.
-/

/-- A process address. -/
abbrev Addr := Nat

/-- A mapped region: base address and size in bytes. -/
abbrev Region := Addr × Nat

/-- The build-time platform backend selected by the preprocessor in
mapping.h. -/
inductive Platform
  | linux
  | freebsd
  | apple
  | windows
deriving DecidableEq

/-- Whether a post-map hygiene hint is issued (and asserted) after a
successful `mmap`: `madvise` on Linux, `minherit` on FreeBSD and Apple,
nothing on Windows. -/
def Platform.hasHint : Platform → Bool
  | .windows => false
  | _ => true

/-- Whether `clear()` can use the physical-page-discard hint
(`madvise(MADV_DONTNEED)`, Linux only); otherwise `clear()` takes the
unmap-then-remap fallback path. -/
def Platform.hasDiscardHint : Platform → Bool
  | .linux => true
  | _ => false

/-- The OS view of the process's anonymous mappings. -/
structure OS where
  mapped : Multiset Region
  doubleFree : Bool
deriving DecidableEq

/-- A fresh process: nothing mapped, no double release has happened. -/
def OS.init : OS := ⟨0, false⟩

/-- `munmap` of a region: removes one occurrence if the region is mapped;
otherwise records a double release (the call itself still "succeeds", as
`munmap` of an unmapped range does on the real OS). -/
def OS.munmap (os : OS) (r : Region) : OS :=
  if r ∈ os.mapped then { os with mapped := os.mapped.erase r }
  else { os with doubleFree := true }

/-- `mmap` of `size` bytes with oracle outcome `o`: `none` models
`MAP_FAILED`, `some a` models a successful mapping at address `a`. -/
def OS.mmap (os : OS) (o : Option Addr) (size : Nat) : OS × Option Addr :=
  match o with
  | none => (os, none)
  | some a => ({ os with mapped := (a, size) ::ₘ os.mapped }, some a)

/-- Oracle for one `try_map` call: the `mmap` outcome and whether the
post-map hygiene hint (`madvise`/`minherit`) succeeds. -/
structure MapOracle where
  mmapResult : Option Addr
  hintOk : Bool
deriving DecidableEq

/-- The `Mapping` class: `baseAddress` (`none` = `MAP_FAILED`) and `size`,
with the default member initializers of the C++ class. -/
structure Mapping where
  baseAddress : Option Addr := none
  size : Nat := 0
deriving DecidableEq

/-- `explicit operator bool`: `baseAddress != MAP_FAILED`. -/
def Mapping.valid (m : Mapping) : Bool := m.baseAddress.isSome

/-- `Mapping::try_map(uintptr_t baseAddress)`.  Returns the updated object,
the C++ `bool` return value, and the OS state; `Except.error os` models a
failed `assert` (process abort) with the OS state at that moment.
The returned-address check (lines 102–108) is unconditional in the source:
it runs on every platform, whether or not a fixed-mapping flag was passed. -/
def Mapping.try_map (p : Platform) (m : Mapping) (requested : Addr)
    (o : MapOracle) (os : OS) : Except OS (Mapping × Bool × OS) :=
  if m.baseAddress.isSome then .error os
  else
    match OS.mmap os o.mmapResult m.size with
    | (os₁, none) => .ok ({ m with baseAddress := none }, false, os₁)
    | (os₁, some mappedAddress) =>
      if requested ≠ 0 ∧ requested ≠ mappedAddress then
        .ok ({ m with baseAddress := none }, false,
          os₁.munmap (mappedAddress, m.size))
      else
        if p.hasHint ∧ ¬ o.hintOk then
          .error { os₁ with mapped := os₁.mapped }
        else .ok ({ m with baseAddress := some mappedAddress }, true, os₁)

/-- `Mapping()`: the defaulted constructor. -/
def Mapping.mkDefault : Mapping := {}

/-- `Mapping(uintptr_t baseAddress, std::size_t size)`: initializes `size`
and calls `try_map(baseAddress)`, ignoring its `bool` result.
`Mapping(std::size_t size)` is `create p 0 size`. -/
def Mapping.create (p : Platform) (requested : Addr) (size : Nat)
    (o : MapOracle) (os : OS) : Except OS (Mapping × OS) :=
  match Mapping.try_map p { baseAddress := none, size := size } requested o os with
  | .error osF => .error osF
  | .ok (m, _, os') => .ok (m, os')

/-- `getBaseAddress()`: `assert(*this)` then return the field; the assert
failure on an invalid mapping is the `error` case. -/
def Mapping.getBaseAddress (m : Mapping) : Except Unit Addr :=
  match m.baseAddress with
  | some a => .ok a
  | none => .error ()

/-- `getSize()`: returns the `size` field; the source has no assert here. -/
def Mapping.getSize (m : Mapping) : Nat := m.size

/-- The move constructor `Mapping(Mapping &&other)`: the result is
(new object, `other` after the move). -/
def Mapping.moveCtorPair (other : Mapping) : Mapping × Mapping :=
  (⟨other.baseAddress, other.size⟩, ⟨none, 0⟩)

/-- The body of move assignment for distinct objects: `swap` of both
fields.  The result is (`*this` after, `other` after). -/
def Mapping.moveAssignPair (self other : Mapping) : Mapping × Mapping :=
  (⟨other.baseAddress, other.size⟩, ⟨self.baseAddress, self.size⟩)

/-- Oracle for one `clear()` call: whether `madvise(MADV_DONTNEED)`
succeeds (Linux path) and the oracle for the fallback remap. -/
structure ClearOracle where
  madviseOk : Bool
  remap : MapOracle
deriving DecidableEq

/-- `clear()`: `assert(*this)`; on Linux `madvise(MADV_DONTNEED)` (asserted);
otherwise `munmap`, reset `baseAddress` to `MAP_FAILED`, `try_map` at the
old address and `assert(success)`. -/
def Mapping.clear (p : Platform) (m : Mapping) (o : ClearOracle) (os : OS) :
    Except OS (Mapping × OS) :=
  match m.baseAddress with
  | none => .error os
  | some address =>
    if p.hasDiscardHint then
      if o.madviseOk then .ok (m, os) else .error os
    else
      let os₁ := os.munmap (address, m.size)
      match Mapping.try_map p { m with baseAddress := none } address o.remap os₁ with
      | .error osF => .error osF
      | .ok (m', success, os₂) =>
        if success then .ok (m', os₂) else .error os₂

/-- `~Mapping()`: `munmap` the region iff the mapping is valid. -/
def Mapping.destructor (m : Mapping) (os : OS) : OS :=
  match m.baseAddress with
  | some a => os.munmap (a, m.size)
  | none => os

/-- Whether an operation aborted the process (a failed assert). -/
def isFatal {α : Type} : Except OS α → Bool
  | .error _ => true
  | .ok _ => false

/-!
Trace semantics: a client program is a list of operations over a store of
`Mapping` handles.  Handles are indexed by position in the store; `none`
marks a destroyed handle.  Move construction creates a new handle at the
end of the store; a failed assert freezes the state with `aborted = true`.
-/

/-- Move assignment at the store level, including the C++ aliasing check
`if (&other != this)`: self-assignment leaves the store untouched. -/
def moveAssignStore (l : List (Option Mapping)) (dst src : Nat) :
    List (Option Mapping) :=
  if dst = src then l
  else
    match l[dst]?, l[src]? with
    | some (some d), some (some s) =>
      let pair := Mapping.moveAssignPair d s
      (l.set dst (some pair.1)).set src (some pair.2)
    | _, _ => l

/-- One client-visible operation on the store of reservations. -/
inductive Op
  | create (requested : Addr) (size : Nat) (o : MapOracle)
  | moveCtor (src : Nat)
  | moveAssign (dst src : Nat)
  | clearOp (idx : Nat) (o : ClearOracle)
  | destroy (idx : Nat)

/-- The state of a run: the handle store, the OS, and whether an assert
has aborted the process. -/
structure SysState where
  handles : List (Option Mapping)
  os : OS
  aborted : Bool

/-- The initial state: no handles, fresh OS. -/
def SysState.init : SysState := ⟨[], OS.init, false⟩

/-- One step of the trace semantics.  Operations naming a missing handle
are no-ops; once the process has aborted the state is frozen. -/
def step (p : Platform) (s : SysState) (op : Op) : SysState :=
  if s.aborted then s else
  match op with
  | .create requested size o =>
    match Mapping.create p requested size o s.os with
    | .error osF => { s with os := osF, aborted := true }
    | .ok (m, os') => { s with handles := s.handles ++ [some m], os := os' }
  | .moveCtor src =>
    match s.handles[src]? with
    | some (some m) =>
      let pair := Mapping.moveCtorPair m
      { s with handles := (s.handles.set src (some pair.2)) ++ [some pair.1] }
    | _ => s
  | .moveAssign dst src =>
    { s with handles := moveAssignStore s.handles dst src }
  | .clearOp idx o =>
    match s.handles[idx]? with
    | some (some m) =>
      match Mapping.clear p m o s.os with
      | .error osF => { s with os := osF, aborted := true }
      | .ok (m', os') =>
        { s with handles := s.handles.set idx (some m'), os := os' }
    | _ => s
  | .destroy idx =>
    match s.handles[idx]? with
    | some (some m) =>
      { s with handles := s.handles.set idx none,
               os := Mapping.destructor m s.os }
    | _ => s

/-- Run a list of operations. -/
def run (p : Platform) (s : SysState) : List Op → SysState
  | [] => s
  | op :: ops => run p (step p s op) ops

/-- The multiset of regions a (possibly destroyed) handle currently owns. -/
def contrib : Option Mapping → Multiset Region
  | none => 0
  | some m =>
    match m.baseAddress with
    | none => 0
    | some a => {(a, m.size)}

/-- The multiset of regions owned by the valid handles of a store. -/
def validRegions (l : List (Option Mapping)) : Multiset Region :=
  (l.map contrib).sum

/-- The run invariant: no double release has happened, and (as long as the
process is alive) the OS's mapped regions are exactly the regions owned by
the valid handles. -/
def RunInv (s : SysState) : Prop :=
  s.os.doubleFree = false ∧
    (s.aborted = false → validRegions s.handles = s.os.mapped)

/-!
Characterization lemmas for `create` and `clear`, one per execution path.
-/

/-- `create` when the OS returns `MAP_FAILED`. -/
theorem Mapping.create_mmapFail (p : Platform) (requested size : Nat)
    (o : MapOracle) (os : OS) (ho : o.mmapResult = none) :
    Mapping.create p requested size o os = .ok (⟨none, size⟩, os) := by
  simp [Mapping.create, Mapping.try_map, OS.mmap, ho]

/-- `munmap` of the region that was just mapped removes exactly it. -/
theorem OS.munmap_cons_head (M : Multiset Region) (d : Bool) (r : Region) :
    OS.munmap ⟨r ::ₘ M, d⟩ r = ⟨M, d⟩ := by
  simp [OS.munmap, Multiset.erase_cons_head]

/-- `create` when the OS maps at an address other than the requested
(non-null) one: the accidental placement is unmapped again, leaving the OS
exactly as before, and the resulting mapping is invalid. -/
theorem Mapping.create_mismatch (p : Platform) (requested size a : Nat)
    (o : MapOracle) (os : OS) (ho : o.mmapResult = some a)
    (h0 : requested ≠ 0) (hne : a ≠ requested) :
    Mapping.create p requested size o os = .ok (⟨none, size⟩, os) := by
  have hne' : requested ≠ a := fun h => hne h.symm
  simp [Mapping.create, Mapping.try_map, OS.mmap, ho, h0, hne',
    OS.munmap_cons_head]

/-- `create` when the placement is accepted but the hygiene hint fails on a
platform that issues one: the process aborts with the region still mapped. -/
theorem Mapping.create_hintFail (p : Platform) (requested size a : Nat)
    (o : MapOracle) (os : OS) (ho : o.mmapResult = some a)
    (hacc : requested = 0 ∨ requested = a)
    (hh : p.hasHint = true) (hk : o.hintOk = false) :
    Mapping.create p requested size o os =
      .error ⟨(a, size) ::ₘ os.mapped, os.doubleFree⟩ := by
  rcases hacc with h | h <;>
    simp [Mapping.create, Mapping.try_map, OS.mmap, ho, h, hh, hk]

/-- `create` when the placement is accepted and the hint (if any) succeeds. -/
theorem Mapping.create_success (p : Platform) (requested size a : Nat)
    (o : MapOracle) (os : OS) (ho : o.mmapResult = some a)
    (hacc : requested = 0 ∨ requested = a)
    (hint : p.hasHint = false ∨ o.hintOk = true) :
    Mapping.create p requested size o os =
      .ok (⟨some a, size⟩, ⟨(a, size) ::ₘ os.mapped, os.doubleFree⟩) := by
  rcases hacc with h | h <;> rcases hint with h2 | h2 <;>
    simp [Mapping.create, Mapping.try_map, OS.mmap, ho, h, h2]

/-- `clear` on an invalid mapping fails its entry assert. -/
theorem Mapping.clear_invalid (p : Platform) (m : Mapping) (o : ClearOracle)
    (os : OS) (h : m.baseAddress = none) :
    Mapping.clear p m o os = .error os := by
  simp [Mapping.clear, h]

/-- `clear` on the discard-hint path with a successful `madvise`: the
mapping and the OS are untouched. -/
theorem Mapping.clear_discard_ok (p : Platform) (m : Mapping) (o : ClearOracle)
    (os : OS) (addr : Addr) (h : m.baseAddress = some addr)
    (hd : p.hasDiscardHint = true) (hm : o.madviseOk = true) :
    Mapping.clear p m o os = .ok (m, os) := by
  simp [Mapping.clear, h, hd, hm]

/-- `clear` on the discard-hint path with a failing `madvise`: abort. -/
theorem Mapping.clear_discard_fail (p : Platform) (m : Mapping) (o : ClearOracle)
    (os : OS) (addr : Addr) (h : m.baseAddress = some addr)
    (hd : p.hasDiscardHint = true) (hm : o.madviseOk = false) :
    Mapping.clear p m o os = .error os := by
  simp [Mapping.clear, h, hd, hm]

/-- Fallback `clear` when the remap's `mmap` fails: the region was unmapped
and `assert(success)` aborts. -/
theorem Mapping.clear_fallback_mmapFail (p : Platform) (m : Mapping)
    (o : ClearOracle) (os : OS) (addr : Addr) (h : m.baseAddress = some addr)
    (hd : p.hasDiscardHint = false) (hr : o.remap.mmapResult = none) :
    Mapping.clear p m o os = .error (os.munmap (addr, m.size)) := by
  simp [Mapping.clear, Mapping.try_map, OS.mmap, h, hd, hr]

/-- Fallback `clear` when the remap lands at a different address than the
(non-null) old one: the accidental placement is unmapped and
`assert(success)` aborts. -/
theorem Mapping.clear_fallback_mismatch (p : Platform) (m : Mapping)
    (o : ClearOracle) (os : OS) (addr b : Addr) (h : m.baseAddress = some addr)
    (hd : p.hasDiscardHint = false) (hr : o.remap.mmapResult = some b)
    (h0 : addr ≠ 0) (hne : b ≠ addr) :
    Mapping.clear p m o os = .error (os.munmap (addr, m.size)) := by
  have hne' : addr ≠ b := fun h => hne h.symm
  simp [Mapping.clear, Mapping.try_map, OS.mmap, h, hd, hr, h0, hne',
    OS.munmap_cons_head]

/-- Fallback `clear` when the remap is accepted but the hygiene hint fails:
abort with the remapped region in place. -/
theorem Mapping.clear_fallback_hintFail (p : Platform) (m : Mapping)
    (o : ClearOracle) (os : OS) (addr b : Addr) (h : m.baseAddress = some addr)
    (hd : p.hasDiscardHint = false) (hr : o.remap.mmapResult = some b)
    (hacc : addr = 0 ∨ addr = b) (hh : p.hasHint = true)
    (hk : o.remap.hintOk = false) :
    Mapping.clear p m o os =
      .error ⟨(b, m.size) ::ₘ (os.munmap (addr, m.size)).mapped,
        (os.munmap (addr, m.size)).doubleFree⟩ := by
  rcases hacc with h1 | h1 <;>
    simp [Mapping.clear, Mapping.try_map, OS.mmap, h, hd, hr, h1, hh, hk]

/-- Fallback `clear` when the remap is accepted and the hint (if any)
succeeds: the mapping is re-established at the returned address. -/
theorem Mapping.clear_fallback_success (p : Platform) (m : Mapping)
    (o : ClearOracle) (os : OS) (addr b : Addr) (h : m.baseAddress = some addr)
    (hd : p.hasDiscardHint = false) (hr : o.remap.mmapResult = some b)
    (hacc : addr = 0 ∨ addr = b) (hint : p.hasHint = false ∨ o.remap.hintOk = true) :
    Mapping.clear p m o os =
      .ok (⟨some b, m.size⟩, ⟨(b, m.size) ::ₘ (os.munmap (addr, m.size)).mapped,
        (os.munmap (addr, m.size)).doubleFree⟩) := by
  rcases hacc with h1 | h1 <;> rcases hint with h2 | h2 <;>
    simp [Mapping.clear, Mapping.try_map, OS.mmap, h, hd, hr, h1, h2]

/-!
Accounting lemmas for `validRegions`.
-/

theorem validRegions_cons (x : Option Mapping) (l : List (Option Mapping)) :
    validRegions (x :: l) = contrib x + validRegions l := by
  simp [validRegions]

theorem validRegions_append_singleton (l : List (Option Mapping))
    (x : Option Mapping) :
    validRegions (l ++ [x]) = validRegions l + contrib x := by
  simp [validRegions]

theorem validRegions_set (l : List (Option Mapping)) (i : Nat)
    (x y : Option Mapping) (h : l[i]? = some y) :
    validRegions (l.set i x) + contrib y = validRegions l + contrib x := by
  induction l generalizing i with
  | nil => simp at h
  | cons hd tl ih =>
    cases i with
    | zero =>
      simp only [List.getElem?_cons_zero, Option.some.injEq] at h
      subst h
      simp only [List.set, validRegions_cons]
      abel
    | succ n =>
      simp only [List.getElem?_cons_succ] at h
      simp only [List.set, validRegions_cons]
      rw [add_assoc, add_assoc, ih n h]

theorem contrib_le_validRegions (l : List (Option Mapping)) (i : Nat)
    (y : Option Mapping) (h : l[i]? = some y) :
    contrib y ≤ validRegions l := by
  have hs := validRegions_set l i none y h
  calc contrib y ≤ validRegions (l.set i none) + contrib y := self_le_add_left _ _
    _ = validRegions l + contrib none := hs
    _ = validRegions l := by simp [contrib]

/-- A valid handle's region is mapped according to the OS, whenever the run
invariant's accounting equation holds. -/
theorem region_mem_of_handle (l : List (Option Mapping)) (i : Nat)
    (m : Mapping) (a : Addr) (M : Multiset Region)
    (h : l[i]? = some (some m)) (hb : m.baseAddress = some a)
    (hacc : validRegions l = M) : (a, m.size) ∈ M := by
  have hle : contrib (some m) ≤ validRegions l :=
    contrib_le_validRegions l i (some m) h
  rw [hacc] at hle
  have : ({(a, m.size)} : Multiset Region) ≤ M := by
    simpa [contrib, hb] using hle
  exact Multiset.singleton_le.mp this

/-!
The run invariant is preserved by every step, for every oracle behavior.
-/

theorem runInv_step (p : Platform) (s : SysState) (op : Op)
    (hinv : RunInv s) : RunInv (step p s op) := by
  obtain ⟨hdf, haccf⟩ := hinv
  by_cases hab : s.aborted
  · simpa [step, hab] using ⟨hdf, haccf⟩
  have hab' : s.aborted = false := by simpa using hab
  have hacc : validRegions s.handles = s.os.mapped := haccf hab'
  cases op with
  | create requested size o =>
    cases ho : o.mmapResult with
    | none =>
      rw [RunInv]
      simp only [step, hab', Bool.false_eq_true, if_false,
        Mapping.create_mmapFail p requested size o s.os ho]
      refine ⟨hdf, fun _ => ?_⟩
      simp [validRegions_append_singleton, contrib, hacc]
    | some a =>
      by_cases hmm : requested ≠ 0 ∧ a ≠ requested
      · rw [RunInv]
        simp only [step, hab', Bool.false_eq_true, if_false,
          Mapping.create_mismatch p requested size a o s.os ho hmm.1 hmm.2]
        refine ⟨hdf, fun _ => ?_⟩
        simp [validRegions_append_singleton, contrib, hacc]
      · have hacc2 : requested = 0 ∨ requested = a := by
          rcases Decidable.em (requested = 0) with h0 | h0
          · exact Or.inl h0
          · rcases Decidable.em (a = requested) with h1 | h1
            · exact Or.inr h1.symm
            · exact absurd ⟨h0, h1⟩ hmm
        by_cases hf : p.hasHint = true ∧ o.hintOk = false
        · rw [RunInv]
          simp only [step, hab', Bool.false_eq_true, if_false,
            Mapping.create_hintFail p requested size a o s.os ho hacc2 hf.1 hf.2]
          exact ⟨hdf, fun h => by simp at h⟩
        · have hint : p.hasHint = false ∨ o.hintOk = true := by
            rcases Decidable.em (p.hasHint = true) with h0 | h0
            · rcases Decidable.em (o.hintOk = false) with h1 | h1
              · exact absurd ⟨h0, h1⟩ hf
              · exact Or.inr (by simpa using h1)
            · exact Or.inl (by simpa using h0)
          rw [RunInv]
          simp only [step, hab', Bool.false_eq_true, if_false,
            Mapping.create_success p requested size a o s.os ho hacc2 hint]
          refine ⟨hdf, fun _ => ?_⟩
          simp only [validRegions_append_singleton, contrib, hacc]
          rw [add_comm, Multiset.singleton_add]
  | moveCtor src =>
    rw [RunInv]
    simp only [step, hab', Bool.false_eq_true, if_false]
    cases hsrc : s.handles[src]? with
    | none => exact ⟨hdf, fun _ => hacc⟩
    | some om =>
      cases om with
      | none => exact ⟨hdf, fun _ => hacc⟩
      | some m =>
        refine ⟨hdf, fun _ => ?_⟩
        have hset := validRegions_set s.handles src
          (some (Mapping.moveCtorPair m).2) (some m) hsrc
        simp only [validRegions_append_singleton]
        have h2 : contrib (some (Mapping.moveCtorPair m).2) = 0 := by
          simp [Mapping.moveCtorPair, contrib]
        have h1 : contrib (some (Mapping.moveCtorPair m).1) = contrib (some m) := rfl
        rw [h2, add_zero] at hset
        rw [h1, hset, hacc]
  | moveAssign dst src =>
    rw [RunInv]
    simp only [step, hab', Bool.false_eq_true, if_false]
    refine ⟨hdf, fun _ => ?_⟩
    rw [← hacc]
    unfold moveAssignStore
    by_cases hds : dst = src
    · simp [hds]
    rw [if_neg hds]
    cases hd : s.handles[dst]? with
    | none => rfl
    | some od =>
      cases od with
      | none => cases hs : s.handles[src]? with
        | none => rfl
        | some os2 => cases os2 <;> rfl
      | some d =>
        cases hs : s.handles[src]? with
        | none => rfl
        | some os2 =>
          cases os2 with
          | none => rfl
          | some sm =>
            simp only []
            have hpair1 : (Mapping.moveAssignPair d sm).1 = sm := rfl
            have hpair2 : (Mapping.moveAssignPair d sm).2 = d := rfl
            rw [hpair1, hpair2]
            have hs' : (s.handles.set dst (some sm))[src]? = some (some sm) := by
              rw [List.getElem?_set_ne hds, hs]
            have hA := validRegions_set s.handles dst (some sm) (some d) hd
            have hB := validRegions_set (s.handles.set dst (some sm)) src
              (some d) (some sm) hs'
            exact add_right_cancel (hB.trans hA)
  | clearOp idx o =>
    cases hidx : s.handles[idx]? with
    | none =>
      rw [RunInv]
      simp only [step, hab', Bool.false_eq_true, if_false, hidx]
      exact ⟨hdf, fun _ => hacc⟩
    | some om =>
      cases om with
      | none =>
        rw [RunInv]
        simp only [step, hab', Bool.false_eq_true, if_false, hidx]
        exact ⟨hdf, fun _ => hacc⟩
      | some m =>
        cases hb : m.baseAddress with
        | none =>
          rw [RunInv]
          simp only [step, hab', Bool.false_eq_true, if_false, hidx,
            Mapping.clear_invalid p m o s.os hb]
          exact ⟨hdf, fun h => by simp at h⟩
        | some addr =>
          by_cases hdisc : p.hasDiscardHint = true
          · cases hmadv : o.madviseOk with
            | true =>
              rw [RunInv]
              simp only [step, hab', Bool.false_eq_true, if_false, hidx,
                Mapping.clear_discard_ok p m o s.os addr hb hdisc hmadv]
              refine ⟨hdf, fun _ => ?_⟩
              have hset := validRegions_set s.handles idx (some m) (some m) hidx
              exact (add_right_cancel hset).trans hacc
            | false =>
              rw [RunInv]
              simp only [step, hab', Bool.false_eq_true, if_false, hidx,
                Mapping.clear_discard_fail p m o s.os addr hb hdisc hmadv]
              exact ⟨hdf, fun h => by simp at h⟩
          · have hdisc' : p.hasDiscardHint = false := by simpa using hdisc
            have hmem : (addr, m.size) ∈ s.os.mapped :=
              region_mem_of_handle s.handles idx m addr s.os.mapped hidx hb hacc
            have hos₁ : s.os.munmap (addr, m.size)
                = ⟨s.os.mapped.erase (addr, m.size), s.os.doubleFree⟩ := by
              simp [OS.munmap, hmem]
            cases hr : o.remap.mmapResult with
            | none =>
              rw [RunInv]
              simp only [step, hab', Bool.false_eq_true, if_false, hidx,
                Mapping.clear_fallback_mmapFail p m o s.os addr hb hdisc' hr]
              refine ⟨?_, fun h => by simp at h⟩
              rw [hos₁]
              exact hdf
            | some b =>
              by_cases hmm : addr ≠ 0 ∧ b ≠ addr
              · rw [RunInv]
                simp only [step, hab', Bool.false_eq_true, if_false, hidx,
                  Mapping.clear_fallback_mismatch p m o s.os addr b hb hdisc' hr
                    hmm.1 hmm.2]
                refine ⟨?_, fun h => by simp at h⟩
                rw [hos₁]
                exact hdf
              · have hacc2 : addr = 0 ∨ addr = b := by
                  rcases Decidable.em (addr = 0) with h0 | h0
                  · exact Or.inl h0
                  · rcases Decidable.em (b = addr) with h1 | h1
                    · exact Or.inr h1.symm
                    · exact absurd ⟨h0, h1⟩ hmm
                by_cases hf : p.hasHint = true ∧ o.remap.hintOk = false
                · rw [RunInv]
                  simp only [step, hab', Bool.false_eq_true, if_false, hidx,
                    Mapping.clear_fallback_hintFail p m o s.os addr b hb hdisc' hr
                      hacc2 hf.1 hf.2]
                  refine ⟨?_, fun h => by simp at h⟩
                  rw [hos₁]
                  exact hdf
                · have hint : p.hasHint = false ∨ o.remap.hintOk = true := by
                    rcases Decidable.em (p.hasHint = true) with h0 | h0
                    · rcases Decidable.em (o.remap.hintOk = false) with h1 | h1
                      · exact absurd ⟨h0, h1⟩ hf
                      · exact Or.inr (by simpa using h1)
                    · exact Or.inl (by simpa using h0)
                  rw [RunInv]
                  simp only [step, hab', Bool.false_eq_true, if_false, hidx,
                    Mapping.clear_fallback_success p m o s.os addr b hb hdisc' hr
                      hacc2 hint]
                  refine ⟨?_, fun _ => ?_⟩
                  · rw [hos₁]
                    exact hdf
                  · rw [hos₁]
                    have hset := validRegions_set s.handles idx
                      (some ⟨some b, m.size⟩) (some m) hidx
                    have hcm : contrib (some m) = {(addr, m.size)} := by
                      simp [contrib, hb]
                    have hcx : contrib (some (⟨some b, m.size⟩ : Mapping))
                        = {(b, m.size)} := by simp [contrib]
                    rw [hcm, hcx, hacc] at hset
                    have hrest : s.os.mapped.erase (addr, m.size)
                        + ({(addr, m.size)} : Multiset Region) = s.os.mapped := by
                      rw [add_comm, Multiset.singleton_add,
                        Multiset.cons_erase hmem]
                    have hrhs : ((b, m.size) ::ₘ s.os.mapped.erase (addr, m.size))
                        + ({(addr, m.size)} : Multiset Region)
                        = s.os.mapped + {(b, m.size)} := by
                      rw [← Multiset.singleton_add, add_assoc, hrest, add_comm]
                    exact add_right_cancel (hset.trans hrhs.symm)
  | destroy idx =>
    cases hidx : s.handles[idx]? with
    | none =>
      rw [RunInv]
      simp only [step, hab', Bool.false_eq_true, if_false, hidx]
      exact ⟨hdf, fun _ => hacc⟩
    | some om =>
      cases om with
      | none =>
        rw [RunInv]
        simp only [step, hab', Bool.false_eq_true, if_false, hidx]
        exact ⟨hdf, fun _ => hacc⟩
      | some m =>
        cases hb : m.baseAddress with
        | none =>
          rw [RunInv]
          simp only [step, hab', Bool.false_eq_true, if_false, hidx,
            Mapping.destructor, hb]
          refine ⟨hdf, fun _ => ?_⟩
          have hset := validRegions_set s.handles idx none (some m) hidx
          have hcm : contrib (some m) = 0 := by simp [contrib, hb]
          rw [hcm, add_zero] at hset
          simp only [contrib, add_zero] at hset
          rw [hset, hacc]
        | some a =>
          have hmem : (a, m.size) ∈ s.os.mapped :=
            region_mem_of_handle s.handles idx m a s.os.mapped hidx hb hacc
          rw [RunInv]
          simp only [step, hab', Bool.false_eq_true, if_false, hidx,
            Mapping.destructor, hb, OS.munmap, hmem, if_true]
          refine ⟨hdf, fun _ => ?_⟩
          have hset := validRegions_set s.handles idx none (some m) hidx
          have hcm : contrib (some m) = {(a, m.size)} := by simp [contrib, hb]
          have hcn : contrib (none : Option Mapping) = 0 := rfl
          rw [hcm, hcn, add_zero, hacc] at hset
          have : validRegions (s.handles.set idx none) + {(a, m.size)}
              = s.os.mapped.erase (a, m.size) + ({(a, m.size)} : Multiset Region) := by
            rw [hset, add_comm, Multiset.singleton_add, Multiset.cons_erase hmem]
          exact add_right_cancel this

theorem runInv_run (p : Platform) (ops : List Op) (s : SysState)
    (hinv : RunInv s) : RunInv (run p s ops) := by
  induction ops generalizing s with
  | nil => exact hinv
  | cons op ops ih => exact ih (step p s op) (runInv_step p s op hinv)

theorem runInv_init : RunInv SysState.init := by
  constructor
  · rfl
  · intro _
    rfl

/-- Any non-fatal `create` produces a mapping whose `size` field is the
requested size, whether or not the mapping succeeded. -/
theorem Mapping.create_ok_size (p : Platform) (requested size : Nat)
    (o : MapOracle) (os : OS) (m : Mapping) (os' : OS)
    (h : Mapping.create p requested size o os = .ok (m, os')) :
    m.size = size := by
  cases ho : o.mmapResult with
  | none =>
    rw [Mapping.create_mmapFail p requested size o os ho] at h
    simp only [Except.ok.injEq, Prod.mk.injEq] at h
    rw [← h.1]
  | some a =>
    by_cases hmm : requested ≠ 0 ∧ a ≠ requested
    · rw [Mapping.create_mismatch p requested size a o os ho hmm.1 hmm.2] at h
      simp only [Except.ok.injEq, Prod.mk.injEq] at h
      rw [← h.1]
    · have hacc2 : requested = 0 ∨ requested = a := by
        rcases Decidable.em (requested = 0) with h0 | h0
        · exact Or.inl h0
        · rcases Decidable.em (a = requested) with h1 | h1
          · exact Or.inr h1.symm
          · exact absurd ⟨h0, h1⟩ hmm
      by_cases hf : p.hasHint = true ∧ o.hintOk = false
      · rw [Mapping.create_hintFail p requested size a o os ho hacc2 hf.1 hf.2] at h
        simp at h
      · have hint : p.hasHint = false ∨ o.hintOk = true := by
          rcases Decidable.em (p.hasHint = true) with h0 | h0
          · rcases Decidable.em (o.hintOk = false) with h1 | h1
            · exact absurd ⟨h0, h1⟩ hf
            · exact Or.inr (by simpa using h1)
          · exact Or.inl (by simpa using h0)
        rw [Mapping.create_success p requested size a o os ho hacc2 hint] at h
        simp only [Except.ok.injEq, Prod.mk.injEq] at h
        rw [← h.1]

/-!
Claim theorems.
-/

/-- C1: for every valid reservation (whose base is a real OS address, i.e.
not the null page, which `mmap` never returns for these mappings), a
non-aborting `clear()` leaves the reservation valid with `getBaseAddress()`
and `getSize()` unchanged — on the fallback path because the
unmap-then-remap reacquires exactly the same base address (any other
outcome fails `assert(success)` and aborts instead of returning). -/
theorem C1_clear_preserves_reservation (p : Platform) (m m' : Mapping)
    (o : ClearOracle) (os os' : OS)
    (hv : m.valid = true) (h0 : m.baseAddress ≠ some 0)
    (h : Mapping.clear p m o os = .ok (m', os')) :
    m'.valid = true ∧ m'.baseAddress = m.baseAddress ∧ m'.getSize = m.getSize := by
  obtain ⟨addr, hb⟩ : ∃ a, m.baseAddress = some a := by
    cases hba : m.baseAddress with
    | none => rw [Mapping.valid, hba] at hv; simp at hv
    | some a => exact ⟨a, rfl⟩
  have haddr0 : addr ≠ 0 := by
    intro hz
    exact h0 (hz ▸ hb)
  by_cases hdisc : p.hasDiscardHint = true
  · cases hmadv : o.madviseOk with
    | true =>
      rw [Mapping.clear_discard_ok p m o os addr hb hdisc hmadv] at h
      simp only [Except.ok.injEq, Prod.mk.injEq] at h
      rw [← h.1]
      exact ⟨hv, rfl, rfl⟩
    | false =>
      rw [Mapping.clear_discard_fail p m o os addr hb hdisc hmadv] at h
      simp at h
  · have hdisc' : p.hasDiscardHint = false := by simpa using hdisc
    cases hr : o.remap.mmapResult with
    | none =>
      rw [Mapping.clear_fallback_mmapFail p m o os addr hb hdisc' hr] at h
      simp at h
    | some b =>
      by_cases hba : b = addr
      · subst hba
        by_cases hf : p.hasHint = true ∧ o.remap.hintOk = false
        · rw [Mapping.clear_fallback_hintFail p m o os b b hb hdisc' hr
            (Or.inr rfl) hf.1 hf.2] at h
          simp at h
        · have hint : p.hasHint = false ∨ o.remap.hintOk = true := by
            rcases Decidable.em (p.hasHint = true) with hx | hx
            · rcases Decidable.em (o.remap.hintOk = false) with hy | hy
              · exact absurd ⟨hx, hy⟩ hf
              · exact Or.inr (by simpa using hy)
            · exact Or.inl (by simpa using hx)
          rw [Mapping.clear_fallback_success p m o os b b hb hdisc' hr
            (Or.inr rfl) hint] at h
          simp only [Except.ok.injEq, Prod.mk.injEq] at h
          rw [← h.1]
          exact ⟨rfl, hb.symm, rfl⟩
      · rw [Mapping.clear_fallback_mismatch p m o os addr b hb hdisc' hr
          haddr0 hba] at h
        simp at h

/-- Witness for C1 at a concrete fallback-path instance. -/
theorem C1_witness :
    (Mapping.clear .freebsd ⟨some 4096, 16384⟩ ⟨true, ⟨some 4096, true⟩⟩
        ⟨{(4096, 16384)}, false⟩
      = .ok (⟨some 4096, 16384⟩, ⟨{(4096, 16384)}, false⟩))
    ∧ ((⟨some 4096, 16384⟩ : Mapping).valid = true
      ∧ (⟨some 4096, 16384⟩ : Mapping).baseAddress
          = (⟨some 4096, 16384⟩ : Mapping).baseAddress
      ∧ (⟨some 4096, 16384⟩ : Mapping).getSize
          = (⟨some 4096, 16384⟩ : Mapping).getSize) :=
  have h : Mapping.clear .freebsd ⟨some 4096, 16384⟩ ⟨true, ⟨some 4096, true⟩⟩
      ⟨{(4096, 16384)}, false⟩
      = .ok (⟨some 4096, 16384⟩, ⟨{(4096, 16384)}, false⟩) := by rfl
  ⟨h, C1_clear_preserves_reservation .freebsd ⟨some 4096, 16384⟩
    ⟨some 4096, 16384⟩ ⟨true, ⟨some 4096, true⟩⟩ ⟨{(4096, 16384)}, false⟩
    ⟨{(4096, 16384)}, false⟩ rfl (by decide) h⟩

/-- C2 counterexample: the claim says that after *any* move (construction or
assignment) the source becomes invalid and destroying it is a no-op.  Move
assignment into a *valid* destination refutes this: the swap leaves the
source holding the destination's former mapping, so the source is still
valid and destroying it releases that mapping (not a no-op). -/
theorem C2_counterexample :
    (Mapping.moveAssignPair ⟨some 4096, 4096⟩ ⟨some 8192, 4096⟩).2.valid = true
    ∧ Mapping.destructor (Mapping.moveAssignPair ⟨some 4096, 4096⟩ ⟨some 8192, 4096⟩).2
        ⟨{(4096, 4096), (8192, 4096)}, false⟩
      ≠ ⟨{(4096, 4096), (8192, 4096)}, false⟩ := by
  constructor
  · rfl
  · decide

/-- C2 amended: move construction transfers `baseAddress`/`size` to the
destination, the source becomes invalid and destroying it is a no-op; move
assignment transfers the source's `baseAddress`/`size` to the destination,
but the source receives the destination's *former* state (so it is invalid
exactly when the destination was), and destroying the source afterwards has
exactly the effect of destroying the former destination — it releases only
the destination's former mapping and never the destination's current one. -/
theorem C2_move_semantics (other d s : Mapping) (os : OS) :
    (Mapping.moveCtorPair other).1.baseAddress = other.baseAddress
    ∧ (Mapping.moveCtorPair other).1.getSize = other.getSize
    ∧ (Mapping.moveCtorPair other).2.valid = false
    ∧ Mapping.destructor (Mapping.moveCtorPair other).2 os = os
    ∧ (Mapping.moveAssignPair d s).1.baseAddress = s.baseAddress
    ∧ (Mapping.moveAssignPair d s).1.getSize = s.getSize
    ∧ (Mapping.moveAssignPair d s).2.valid = d.valid
    ∧ Mapping.destructor (Mapping.moveAssignPair d s).2 os
        = Mapping.destructor d os :=
  ⟨rfl, rfl, rfl, rfl, rfl, rfl, rfl, rfl⟩

/-- C3: whenever creation fails — the OS declines the mapping, or the
unconditional placement check sees an address other than the requested
(non-null) one — the constructor returns an invalid mapping (`baseAddress`
is the `MAP_FAILED` sentinel, modelled as `none`) and the OS is left exactly
as it was before the attempt: any accidental placement has been unmapped. -/
theorem C3_failed_create_invalid_no_residual (p : Platform)
    (requested size : Nat) (o : MapOracle) (os : OS)
    (hfail : o.mmapResult = none
      ∨ ∃ a, o.mmapResult = some a ∧ requested ≠ 0 ∧ a ≠ requested) :
    Mapping.create p requested size o os = .ok (⟨none, size⟩, os) := by
  rcases hfail with h | ⟨a, ha, h0, hne⟩
  · exact Mapping.create_mmapFail p requested size o os h
  · exact Mapping.create_mismatch p requested size a o os ha h0 hne

/-- Witness for C3 on the address-mismatch path. -/
theorem C3_witness :
    Mapping.create .linux 4096 4096 ⟨some 8192, true⟩ OS.init
      = .ok (⟨none, 4096⟩, OS.init) :=
  C3_failed_create_invalid_no_residual .linux 4096 4096 ⟨some 8192, true⟩
    OS.init (Or.inr ⟨8192, rfl, by decide, by decide⟩)

/-- C4 counterexample: the claim says `create` returns a result value that
distinguishes `MappingFailed` (oracle: `mmap` returns `MAP_FAILED`) from
`AddressMismatch` (oracle: `mmap` returns 8192 instead of the requested
4096).  In the code the constructor discards `try_map`'s `bool` and there is
no error value at all: both failures produce the identical invalid
`Mapping`, so the caller cannot tell them apart. -/
theorem C4_counterexample :
    Mapping.create .linux 4096 4096 ⟨none, true⟩ OS.init
      = Mapping.create .linux 4096 4096 ⟨some 8192, true⟩ OS.init := by
  rfl

/-- C4 amended: `create` communicates failure only through the validity of
the returned `Mapping`; the OS-declined and the address-mismatch failure
produce identical results and are not distinguishable by the caller. -/
theorem C4_failures_indistinguishable (p : Platform) (requested size a : Nat)
    (o₁ o₂ : MapOracle) (os : OS) (h₁ : o₁.mmapResult = none)
    (h₂ : o₂.mmapResult = some a) (h0 : requested ≠ 0) (hne : a ≠ requested) :
    Mapping.create p requested size o₁ os = Mapping.create p requested size o₂ os
    ∧ Mapping.create p requested size o₁ os = .ok (⟨none, size⟩, os) := by
  have e1 := Mapping.create_mmapFail p requested size o₁ os h₁
  have e2 := Mapping.create_mismatch p requested size a o₂ os h₂ h0 hne
  exact ⟨e1.trans e2.symm, e1⟩

/-- Witness for the amended C4. -/
theorem C4_witness :
    Mapping.create .freebsd 4096 4096 ⟨none, true⟩ OS.init
      = Mapping.create .freebsd 4096 4096 ⟨some 12288, true⟩ OS.init
    ∧ Mapping.create .freebsd 4096 4096 ⟨none, true⟩ OS.init
      = .ok (⟨none, 4096⟩, OS.init) :=
  C4_failures_indistinguishable .freebsd 4096 4096 12288 ⟨none, true⟩
    ⟨some 12288, true⟩ OS.init rfl rfl (by decide) (by decide)

/-- C5 counterexample: the claim says calling `getSize()` on an invalid
reservation traps fatally and never silently returns a value.  But
`getSize()` has no assert: on the invalid reservation produced by a failed
`create` it silently returns the stale requested size 4096. -/
theorem C5_counterexample :
    Mapping.create .linux 0 4096 ⟨none, true⟩ OS.init
      = .ok (⟨none, 4096⟩, OS.init)
    ∧ (⟨none, 4096⟩ : Mapping).valid = false
    ∧ Mapping.getSize ⟨none, 4096⟩ = 4096 :=
  ⟨rfl, rfl, rfl⟩

/-- C5 amended: `getBaseAddress()` on an invalid reservation is a
precondition violation that traps fatally (`assert(*this)`), but
`getSize()` has no validity precondition: it silently returns the stored
`size` field even on an invalid reservation. -/
theorem C5_accessor_preconditions :
    (∀ m : Mapping, m.valid = false → Mapping.getBaseAddress m = .error ())
    ∧ (∀ m : Mapping, Mapping.getSize m = m.size) := by
  constructor
  · intro m hv
    cases hb : m.baseAddress with
    | none => simp [Mapping.getBaseAddress, hb]
    | some a => rw [Mapping.valid, hb] at hv; simp at hv
  · intro m
    rfl

/-- Witness for the amended C5. -/
theorem C5_witness : Mapping.getBaseAddress ⟨none, 4096⟩ = .error () :=
  C5_accessor_preconditions.1 ⟨none, 4096⟩ rfl

/-- C6: on every backend (in particular those without an atomic
fixed-mapping flag — the returned-address check is unconditional in the
source), if a creation requests a non-null address and the OS returns a
different one, `try_map` unmaps the accidental placement (the OS state is
returned unchanged) and reports failure (`false`, with the mapping left
invalid); it never keeps a mapping at an address other than the requested
one. -/
theorem C6_mismatch_unmaps_and_fails (p : Platform) (size requested a : Nat)
    (o : MapOracle) (os : OS) (h0 : requested ≠ 0)
    (ho : o.mmapResult = some a) (hne : a ≠ requested) :
    Mapping.try_map p ⟨none, size⟩ requested o os
      = .ok (⟨none, size⟩, false, os) := by
  have hne' : requested ≠ a := fun h => hne h.symm
  simp [Mapping.try_map, OS.mmap, ho, h0, hne', OS.munmap_cons_head]

/-- Witness for C6. -/
theorem C6_witness :
    Mapping.try_map .windows ⟨none, 8192⟩ 4096 ⟨some 20480, true⟩
      ⟨{(1000, 50)}, false⟩
      = .ok (⟨none, 8192⟩, false, ⟨{(1000, 50)}, false⟩) :=
  C6_mismatch_unmaps_and_fails .windows 8192 4096 20480 ⟨some 20480, true⟩
    ⟨{(1000, 50)}, false⟩ (by decide) rfl (by decide)

/-- C7: a failing post-map hygiene hint (on a platform that issues one,
after a successful, accepted placement) aborts the process inside the
constructor, and a failing fallback remap during `clear()` (the `mmap`
fails, or lands at a different address than the non-null old one) aborts
the process inside `clear()`; neither is ever surfaced as a returned value. -/
theorem C7_hint_and_remap_failures_fatal :
    (∀ (p : Platform) (requested size a : Nat) (o : MapOracle) (os : OS),
      p.hasHint = true → o.mmapResult = some a →
      (requested = 0 ∨ requested = a) → o.hintOk = false →
      isFatal (Mapping.create p requested size o os) = true)
    ∧ (∀ (p : Platform) (m : Mapping) (o : ClearOracle) (os : OS) (addr : Addr),
      p.hasDiscardHint = false → m.baseAddress = some addr → addr ≠ 0 →
      (o.remap.mmapResult = none
        ∨ ∃ b, o.remap.mmapResult = some b ∧ b ≠ addr) →
      isFatal (Mapping.clear p m o os) = true) := by
  constructor
  · intro p requested size a o os hh ho hacc hk
    rw [Mapping.create_hintFail p requested size a o os ho hacc hh hk]
    rfl
  · intro p m o os addr hd hb h0 hfail
    rcases hfail with h | ⟨b, hrb, hne⟩
    · rw [Mapping.clear_fallback_mmapFail p m o os addr hb hd h]
      rfl
    · rw [Mapping.clear_fallback_mismatch p m o os addr b hb hd hrb h0 hne]
      rfl

/-- Witness for C7: a failing `madvise` hint on Linux aborts `create`, and
a failed fallback remap on FreeBSD aborts `clear`. -/
theorem C7_witness :
    isFatal (Mapping.create .linux 4096 4096 ⟨some 4096, false⟩ OS.init) = true
    ∧ isFatal (Mapping.clear .freebsd ⟨some 4096, 4096⟩ ⟨true, ⟨none, true⟩⟩
        ⟨{(4096, 4096)}, false⟩) = true :=
  ⟨C7_hint_and_remap_failures_fatal.1 .linux 4096 4096 4096 ⟨some 4096, false⟩
      OS.init rfl rfl (Or.inr rfl) rfl,
    C7_hint_and_remap_failures_fatal.2 .freebsd ⟨some 4096, 4096⟩
      ⟨true, ⟨none, true⟩⟩ ⟨{(4096, 4096)}, false⟩ 4096 rfl rfl (by decide)
      (Or.inl rfl)⟩

/-- C8: the destructor releases the OS mapping exactly when the reservation
is valid at that moment — destroying an invalid (default-constructed,
failed-create, or moved-from) reservation performs no release — and in
every sequence of create/move/clear/destroy operations, starting from a
fresh process and for every oracle behavior, no region is ever passed to
`munmap` while it is not mapped (no mapping is released twice). -/
theorem C8_release_iff_valid_never_twice :
    (∀ (m : Mapping) (os : OS), m.valid = false → Mapping.destructor m os = os)
    ∧ (∀ (m : Mapping) (os : OS) (a : Addr), m.baseAddress = some a →
        Mapping.destructor m os = os.munmap (a, m.size))
    ∧ (∀ (p : Platform) (ops : List Op),
        (run p SysState.init ops).os.doubleFree = false) := by
  refine ⟨?_, ?_, ?_⟩
  · intro m os hv
    cases hb : m.baseAddress with
    | none => simp [Mapping.destructor, hb]
    | some a => rw [Mapping.valid, hb] at hv; simp at hv
  · intro m os a hb
    simp [Mapping.destructor, hb]
  · intro p ops
    exact (runInv_run p ops SysState.init runInv_init).1

/-- Witness for C8: a moved-from destroy is a no-op, a valid destroy
unmaps, and a full create/move/clear/destroy trace (on the fallback
platform) ends with no double release. -/
theorem C8_witness :
    Mapping.destructor ⟨none, 0⟩ ⟨{(4096, 4096)}, false⟩
      = ⟨{(4096, 4096)}, false⟩
    ∧ Mapping.destructor ⟨some 4096, 4096⟩ ⟨{(4096, 4096)}, false⟩
      = (⟨{(4096, 4096)}, false⟩ : OS).munmap (4096, 4096)
    ∧ (run .freebsd SysState.init
        [Op.create 4096 4096 ⟨some 4096, true⟩, Op.moveCtor 0,
          Op.moveAssign 0 1, Op.clearOp 0 ⟨true, ⟨some 4096, true⟩⟩,
          Op.destroy 1, Op.destroy 0]).os.doubleFree = false :=
  ⟨C8_release_iff_valid_never_twice.1 ⟨none, 0⟩ ⟨{(4096, 4096)}, false⟩ rfl,
    C8_release_iff_valid_never_twice.2.1 ⟨some 4096, 4096⟩
      ⟨{(4096, 4096)}, false⟩ 4096 rfl,
    C8_release_iff_valid_never_twice.2.2 .freebsd
      [Op.create 4096 4096 ⟨some 4096, true⟩, Op.moveCtor 0,
        Op.moveAssign 0 1, Op.clearOp 0 ⟨true, ⟨some 4096, true⟩⟩,
        Op.destroy 1, Op.destroy 0]⟩

/-- C9: a non-fatal `create` that failed still records the requested size —
its invalid result reports `getSize() = size` — while a default-constructed
mapping and the source of a move construction report `getSize() = 0`. -/
theorem C9_size_bookkeeping :
    (∀ (p : Platform) (requested size : Nat) (o : MapOracle) (os os' : OS)
      (m : Mapping), Mapping.create p requested size o os = .ok (m, os') →
      m.valid = false → m.getSize = size)
    ∧ Mapping.mkDefault.getSize = 0
    ∧ (∀ other : Mapping, (Mapping.moveCtorPair other).2.getSize = 0) := by
  refine ⟨?_, rfl, fun _ => rfl⟩
  intro p requested size o os os' m h _
  exact Mapping.create_ok_size p requested size o os m os' h

/-- Witness for C9 at a failed create of size 4096. -/
theorem C9_witness :
    Mapping.getSize ⟨none, 4096⟩ = 4096
    ∧ Mapping.mkDefault.getSize = 0
    ∧ (Mapping.moveCtorPair ⟨some 4096, 4096⟩).2.getSize = 0 :=
  have h : Mapping.create .linux 4096 4096 ⟨none, true⟩ OS.init
      = .ok (⟨none, 4096⟩, OS.init) := by rfl
  ⟨C9_size_bookkeeping.1 .linux 4096 4096 ⟨none, true⟩ OS.init OS.init
      ⟨none, 4096⟩ h rfl,
    C9_size_bookkeeping.2.1,
    C9_size_bookkeeping.2.2 ⟨some 4096, 4096⟩⟩

/-- C10: move-assigning a reservation to itself takes the `&other != this`
branch and leaves the whole store — in particular that handle's
`baseAddress`, `size` and validity — completely unchanged. -/
theorem C10_self_move_assign_unchanged (l : List (Option Mapping)) (i : Nat) :
    moveAssignStore l i i = l := by
  simp [moveAssignStore]
